import Mathlib

/-!
Verification of the bladeRF RF driver (lib/src/phy/rf/rf_blade_imp.c).

The driver adapts a bladeRF software-defined radio to the generic srsRAN RF
frontend.  The development below shallowly embeds the driver's control flow
and arithmetic: vendor SDK calls are represented by an oracle structure that
supplies each call's status and out-parameters, and every function returns an
explicit trace of the SDK calls it issued.  Machine integers are modelled as
Nat / Int, with an explicit mod 2^32 where 32-bit wraparound matters.
Timestamp conversion models the IEEE-754 binary64 roundings of the C double
arithmetic; the sample-scaling conversions are modelled exactly over the
rationals, which is faithful on the exactly representable values the claims
confine them to.
-/

namespace RfBlade

/-- Fixed conversion-buffer sample capacity, from the C macro
CONVERT_BUFFER_SIZE = 240 * 1024. -/
def CONVERT_BUFFER_SIZE : Nat := 240 * 1024

/-- Maximum number of bladeRF ports, from the C macro BLADERF_MAX_PORTS = 2. -/
def BLADERF_MAX_PORTS : Nat := 2

/-- srsRAN maximum number of ports (declared size multiplier of the scratch
buffers rx_buffer and tx_buffer). -/
def SRSRAN_MAX_PORTS : Nat := 4

/-- Generic srsRAN success status. -/
def SRSRAN_SUCCESS : Int := 0

/-- Generic srsRAN error status. -/
def SRSRAN_ERROR : Int := -1

/-- Modulus of 32-bit unsigned arithmetic. -/
def UINT32_MOD : Nat := 2 ^ 32

/-- Value of a Nat reinterpreted as a 32-bit signed int (the C conversion
applied when a uint32_t value is returned through an int). -/
def toInt32 (n : Nat) : Int :=
  if n % UINT32_MOD < 2 ^ 31 then ((n % UINT32_MOD : Nat) : Int)
  else ((n % UINT32_MOD : Nat) : Int) - (UINT32_MOD : Int)

/-- Truncation toward zero of a rational, as performed by a C cast from a
floating-point value to an integer type. -/
def ratTrunc (x : ℚ) : Int := if 0 ≤ x then ⌊x⌋ else ⌈x⌉

/-- Floor base-2 logarithm by fuelled halving.  The fuel only bounds the
recursion depth: structural recursion on it keeps the definition fully
evaluable by reduction.  natLog2Fuel_spec below shows it computes the binade
exponent for every input below 2^fuel. -/
def natLog2Fuel : Nat → Nat → Nat
  | 0, _ => 0
  | fuel + 1, n => if n ≤ 1 then 0 else natLog2Fuel fuel (n / 2) + 1

/-- Floor base-2 logarithm of a positive Nat.  Fuel 128 covers every value
this model feeds it: timestamps and rounded doubles are at most 2^64, rates
below 2^32, so 2^128 bounds all arguments comfortably. -/
def natLog2 (n : Nat) : Nat := natLog2Fuel 128 n

/-- Round-to-nearest integer with ties to even of the exact quotient a / b,
for b > 0: the integer rounding IEEE-754 binary64 applies to a scaled
mantissa. -/
def rneDiv (a b : Nat) : Nat :=
  let q := a / b
  let r := a % b
  if 2 * r < b then q
  else if b < 2 * r then q + 1
  else if q % 2 = 0 then q else q + 1

/-- The C conversion (double)timestamp of a uint64_t value, under IEEE-754
binary64 round-to-nearest-even: values below 2^53 are exactly representable;
a larger value lying in the binade [2^e, 2^(e+1)) is rounded to the nearest
multiple of the unit in the last place 2^(e-52), ties to the even multiple.
(When rounding lands on 2^(e+1), that value is representable in the next
binade, so the result is still the correctly rounded double.) -/
def double_of_uint64 (ts : Nat) : Nat :=
  if ts < 2 ^ 53 then ts
  else rneDiv ts (2 ^ (natLog2 ts - 52)) * 2 ^ (natLog2 ts - 52)

/-- The binade exponent of the positive rational num / den (num, den >= 1):
the largest e with 2^e <= num / den.  For num >= den it is natLog2 of the
integer quotient (2^e <= floor <= num/den < floor + 1 <= 2^(e+1)); for
num < den, with k = natLog2 (den / num) the quotient lies in
(2^(-k-1), 2^(-k)], and it equals 2^(-k) exactly when den = num * 2^k. -/
def ratExp2 (num den : Nat) : Int :=
  if den ≤ num then (natLog2 (num / den) : Int)
  else if den = num * 2 ^ natLog2 (den / num) then -(natLog2 (den / num) : Int)
  else -((natLog2 (den / num) : Int) + 1)

/-- IEEE-754 binary64 correctly-rounded division num / den (num, den >= 1),
as a pair (mantissa, scale): the double's value is mantissa * 2^scale, where
scale is the binade exponent of the exact quotient minus 52 and the mantissa
is the round-to-nearest-even integer scaling of num / den.  In the binade
[2^e, 2^(e+1)) the representable doubles are exactly the multiples of
2^(e-52) (plus the upper boundary itself), so rounding the quotient to the
nearest such multiple with ties to even is the IEEE result.  No overflow or
subnormal arises for the quotients of a uint64 timestamp by a nonzero
uint32 rate. -/
def doubleDivParts (num den : Nat) : Nat × Int :=
  if 0 ≤ ratExp2 num den - 52 then
    (rneDiv num (den * 2 ^ (ratExp2 num den - 52).toNat), ratExp2 num den - 52)
  else
    (rneDiv (num * 2 ^ (-(ratExp2 num den - 52)).toNat) den, ratExp2 num den - 52)

/-- The exact rational value of a (mantissa, scale) double representation. -/
def qOfParts (p : Nat × Int) : ℚ :=
  if 0 ≤ p.2 then ((p.1 * 2 ^ p.2.toNat : Nat) : ℚ)
  else (p.1 : ℚ) / ((2 ^ (-p.2).toNat : Nat) : ℚ)

/-- The C cast (time_t) of a nonnegative (mantissa, scale) double value:
truncation toward zero, which for a nonnegative value is the floor. -/
def truncOfParts (p : Nat × Int) : Nat :=
  if 0 ≤ p.2 then p.1 * 2 ^ p.2.toNat
  else p.1 / 2 ^ (-p.2).toNat

/-- The double totalsecs = (double)timestamp / rate computed by
timestamp_to_secs: the uint64 timestamp rounded to a double, then divided
with correct rounding by the uint32 rate (itself exactly representable). -/
def totalsecsParts (rate timestamp : Nat) : Nat × Int :=
  doubleDivParts (double_of_uint64 timestamp) rate

/-- Embedding of the static helper timestamp_to_secs under IEEE-754 binary64
semantics: totalsecs is the correctly-rounded double quotient
(double)timestamp / rate, the whole-second part secs_i is its (time_t) cast
(truncation toward zero), and the fractional part is the double difference
totalsecs - (double)secs_i.  Only the conversion of the timestamp and the
division round: (double)secs_i is exact (below 2^52 the cast is of a small
integer, and at or above 2^52 totalsecs is itself integral so secs_i equals
it), and the final subtraction is exact because the difference of a double
and its floor is a multiple of the double's ulp below the double itself,
hence representable.  rate = 0 divides by zero in C (an IEEE infinity and an
undefined cast); that case is left unmodelled and excluded by the claims'
rate > 0. -/
def timestamp_to_secs (rate timestamp : Nat) : Int × ℚ :=
  if rate = 0 then (0, 0)
  else if timestamp = 0 then (0, 0)
  else
    ((truncOfParts (totalsecsParts rate timestamp) : Int),
     qOfParts (totalsecsParts rate timestamp)
       - ((truncOfParts (totalsecsParts rate timestamp) : Nat) : ℚ))

/-- Writing one element of a flat sample buffer, modelled as a function
update. -/
def writeAt (buf : Nat → ℚ) (idx : Nat) (v : ℚ) : Nat → ℚ :=
  fun j => if j = idx then v else buf j

/-- Embedding of the channel-combination loop of rf_blade_send_timed_multi:
for i in [0, 2*nsamples), interleavedBuffer[nsamples * (i mod 2) + i / 2] is
assigned data[i mod 2][i / 2].  The interleaved buffer is zero-initialised by
the preceding memset. -/
def sendInterleave (nsamples : Nat) (data0 data1 : Nat → ℚ) : Nat → ℚ :=
  (List.range (2 * nsamples)).foldl
    (fun buf i =>
      let src := if i % 2 = 0 then data0 else data1
      writeAt buf (nsamples * (i % 2) + i / 2) (src (i / 2)))
    (fun _ => 0)

/-- One write performed by the channel-split loop of
rf_blade_recv_with_time_multi: the target channel buffer and the index
written within it. -/
structure SplitWrite where
  channel : Nat
  index : Nat
deriving DecidableEq

/-- The sequence of writes performed by the channel-split loop of
rf_blade_recv_with_time_multi: for i in [0, 2*nsamples), the loop writes
through data[1] when i >= nsamples / 2 and through data[0] otherwise, at
index i - nsamples / 2 when that int difference is nonnegative and at index
i otherwise. -/
def recvSplitWrites (nsamples : Nat) : List SplitWrite :=
  (List.range (2 * nsamples)).map fun i =>
    { channel := if nsamples / 2 ≤ i then 1 else 0
      index := if i < nsamples / 2 then i else i - nsamples / 2 }

/-- The channel-split loop of rf_blade_recv_with_time_multi applied to value
buffers: starting from the caller's two output buffers, each element of the
de-interleaved float buffer tempBuf is stored per the write scheme of
recvSplitWrites. -/
def recvSplit (nsamples : Nat) (tempBuf : Nat → ℚ) (out0 out1 : Nat → ℚ) :
    (Nat → ℚ) × (Nat → ℚ) :=
  (List.range (2 * nsamples)).foldl
    (fun bufs i =>
      let idx := if i < nsamples / 2 then i else i - nsamples / 2
      if nsamples / 2 ≤ i then (bufs.1, writeAt bufs.2 idx (tempBuf i))
      else (writeAt bufs.1 idx (tempBuf i), bufs.2))
    (out0, out1)

/-- Modelled from the spec: srsran_vec_convert_fi (declared in
srsran/phy/utils/vector.h, implementation outside src/) converts a float
sample to the 16-bit fixed-point hardware representation by multiplying by
the scale (2048 here) and casting to int16_t; the cast truncates toward
zero.  Per the claim, inputs are within the representable range, so
saturation is not modelled. -/
def float_to_fixed (x : ℚ) : Int := ratTrunc (x * 2048)

/-- Modelled from the spec: srsran_vec_convert_if (declared in
srsran/phy/utils/vector.h, implementation outside src/) converts a 16-bit
fixed-point sample back to float by dividing by the scale (2048 here). -/
def fixed_to_float (v : Int) : ℚ := (v : ℚ) / 2048

/-- The send-then-receive sample path composed, as exercised by a loopback:
the send path applies the channel-combination loop, then
srsran_vec_convert_fi, then bladerf_interleave_stream_buffer; the receive
path applies bladerf_deinterleave_stream_buffer, then srsran_vec_convert_if,
then the channel-split loop.  The two vendor SDK stream-buffer permutations
are exact mutual inverses by the SDK contract, so they cancel in this
composition and are elided; what remains is the repository's own code.  The
caller's receive buffers start zeroed. -/
def roundTrip (nsamples : Nat) (data0 data1 : Nat → ℚ) :
    (Nat → ℚ) × (Nat → ℚ) :=
  let interleaved := sendInterleave nsamples data0 data1
  let tempBuf := fun i => fixed_to_float (float_to_fixed (interleaved i))
  recvSplit nsamples tempBuf (fun _ => 0) (fun _ => 0)

/-- One vendor SDK (libbladeRF) call issued by the driver, recorded in call
traces. -/
inductive HWCall where
  | openDev
  | setGainMode (ch : Nat)
  | getGainRangeRx (ch : Nat)
  | setGain (ch : Nat) (gain : Int)
  | getGainRangeTx (ch : Nat)
  | setSampleRateRx (ch : Nat) (rate : Nat)
  | setSampleRateTx (ch : Nat) (rate : Nat)
  | setBandwidthRx (ch : Nat) (bw : Nat)
  | setBandwidthTx (ch : Nat) (bw : Nat)
  | syncRx (nsamples : Nat)
  | closeDev
deriving DecidableEq

/-- The kind tag of an srsran_rf_error_t event (srsran/phy/rf/rf.h, outside
src/; only the three tags produced by this driver are relevant). -/
inductive RfErrorType where
  | late
  | underflow
  | overflow
deriving DecidableEq

/-- Oracle for the vendor calls made by rf_blade_recv_with_time_multi: the
status of bladerf_sync_rx and the metadata fields it reports. -/
structure RecvHW where
  syncRxStatus : Int
  overrun : Bool
  actualCount : Nat
  timestamp : Nat

/-- Result of a call to rf_blade_recv_with_time_multi: return value, vendor
calls issued, error-handler invocations (kind and opt count), whether an
overrun was merely logged, the number of int16 slots of the scratch
rx_buffer the hardware receive fills (two per sample), and the converted
timestamp passed back through secs / frac_secs (none when the call returns
before the conversion). -/
structure RecvResult where
  ret : Int
  trace : List HWCall
  handlerCalls : List (RfErrorType × Nat)
  loggedOverrun : Bool
  rxWriteExtent : Nat
  timeOut : Option (Int × ℚ)
deriving DecidableEq

/-- Embedding of rf_blade_recv_with_time_multi.  The guard computes
BLADERF_MAX_PORTS * nsamples in 32-bit unsigned arithmetic (int times
uint32_t), hence the explicit mod 2^32; on guard failure the call returns -1
before any vendor call.  Otherwise bladerf_sync_rx is issued; on a nonzero
status the call returns -1; on success with the overrun metadata flag set
the registered error handler is invoked once with kind overflow and the
reported actual count, or the condition is logged when no handler is
registered.  The hardware timestamp is then converted at the current RX
rate and the (uint32) nsamples value is returned through the int return
type. -/
def rf_blade_recv_with_time_multi (hw : RecvHW) (registered : Bool)
    (rxRate nsamples : Nat) : RecvResult :=
  if CONVERT_BUFFER_SIZE < (BLADERF_MAX_PORTS * nsamples) % UINT32_MOD then
    { ret := -1, trace := [], handlerCalls := [], loggedOverrun := false
      rxWriteExtent := 0, timeOut := none }
  else if hw.syncRxStatus ≠ 0 then
    { ret := -1, trace := [.syncRx nsamples], handlerCalls := []
      loggedOverrun := false, rxWriteExtent := 2 * nsamples, timeOut := none }
  else
    { ret := toInt32 nsamples
      trace := [.syncRx nsamples]
      handlerCalls :=
        if hw.overrun then
          if registered then [(RfErrorType.overflow, hw.actualCount)] else []
        else []
      loggedOverrun := hw.overrun && !registered
      rxWriteExtent := 2 * nsamples
      timeOut := some (timestamp_to_secs rxRate hw.timestamp) }

/-- Oracle for the vendor calls made by the sample-rate setters: per-channel
status of bladerf_set_sample_rate, the achieved rate it writes back, and the
per-channel status of bladerf_set_bandwidth. -/
structure SrateHW where
  setSampleRateStatus : Nat → Int
  achievedRate : Nat → Nat
  setBandwidthStatus : Nat → Int

/-- One bandwidth application performed by a sample-rate setter: the channel,
the achieved sample rate held by the handler at that point, and the
bandwidth value passed to bladerf_set_bandwidth. -/
structure BwEvent where
  ch : Nat
  rate : Nat
  bw : Nat
deriving DecidableEq

/-- State returned by the per-channel loop of a sample-rate setter. -/
structure SrateLoopOut where
  ok : Bool
  rate : Nat
  bwEvents : List BwEvent
  trace : List HWCall

/-- Embedding of the per-channel loop of rf_blade_set_rx_srate: each channel
sets the sample rate (updating handler->rx_rate with the achieved rate) and
then sets the bandwidth, which is the achieved rate when it is below
2000000 and otherwise the achieved rate times 0.8 cast to uint32.  The cast
of the double product rate * 0.8 truncates to exactly 4 * rate / 5 for every
uint32 rate, because the double closest to 0.8 exceeds 4/5 by less than
2^-53 relative error while the fractional parts of 4 * rate / 5 are
multiples of 1/5.  A nonzero status aborts the loop. -/
def set_rx_srate_loop (hw : SrateHW) (freq : Nat) :
    List Nat → Nat → SrateLoopOut
  | [], rate => ⟨true, rate, [], []⟩
  | ch :: rest, rate =>
    if hw.setSampleRateStatus ch ≠ 0 then
      ⟨false, rate, [], [.setSampleRateRx ch freq]⟩
    else
      let rate2 := hw.achievedRate ch
      let bw := if rate2 < 2000000 then rate2 else 4 * rate2 / 5
      if hw.setBandwidthStatus ch ≠ 0 then
        ⟨false, rate2, [⟨ch, rate2, bw⟩],
          [.setSampleRateRx ch freq, .setBandwidthRx ch bw]⟩
      else
        let out := set_rx_srate_loop hw freq rest rate2
        ⟨out.ok, out.rate, ⟨ch, rate2, bw⟩ :: out.bwEvents,
          .setSampleRateRx ch freq :: .setBandwidthRx ch bw :: out.trace⟩

/-- Embedding of the per-channel loop of rf_blade_set_tx_srate: each channel
sets the sample rate (updating handler->tx_rate with the achieved rate) and
then sets the bandwidth, which is always the full achieved rate.  A nonzero
status aborts the loop. -/
def set_tx_srate_loop (hw : SrateHW) (freq : Nat) :
    List Nat → Nat → SrateLoopOut
  | [], rate => ⟨true, rate, [], []⟩
  | ch :: rest, rate =>
    if hw.setSampleRateStatus ch ≠ 0 then
      ⟨false, rate, [], [.setSampleRateTx ch freq]⟩
    else
      let rate2 := hw.achievedRate ch
      if hw.setBandwidthStatus ch ≠ 0 then
        ⟨false, rate2, [⟨ch, rate2, rate2⟩],
          [.setSampleRateTx ch freq, .setBandwidthTx ch rate2]⟩
      else
        let out := set_tx_srate_loop hw freq rest rate2
        ⟨out.ok, out.rate, ⟨ch, rate2, rate2⟩ :: out.bwEvents,
          .setSampleRateTx ch freq :: .setBandwidthTx ch rate2 :: out.trace⟩

/-- Result of a sample-rate setter: the double return value (-1 on failure,
otherwise the final achieved rate), the final handler rate field, the
bandwidth applications performed, and the vendor calls issued. -/
structure SrateResult where
  ret : Int
  finalRate : Nat
  bwEvents : List BwEvent
  trace : List HWCall

/-- Embedding of rf_blade_set_rx_srate over the requested (uint32) frequency
and the handler's RX channel count. -/
def rf_blade_set_rx_srate (hw : SrateHW) (nof_rx_channels freq : Nat) :
    SrateResult :=
  let out := set_rx_srate_loop hw freq (List.range nof_rx_channels) 0
  ⟨if out.ok then (out.rate : Int) else -1, out.rate, out.bwEvents, out.trace⟩

/-- Embedding of rf_blade_set_tx_srate over the requested (uint32) frequency
and the handler's TX channel count. -/
def rf_blade_set_tx_srate (hw : SrateHW) (nof_tx_channels freq : Nat) :
    SrateResult :=
  let out := set_tx_srate_loop hw freq (List.range nof_tx_channels) 0
  ⟨if out.ok then (out.rate : Int) else -1, out.rate, out.bwEvents, out.trace⟩

/-- A bladerf_range gain range (only the min and max fields are read by the
driver). -/
structure GainRange where
  min : Int
  max : Int
deriving DecidableEq

/-- Oracle for the vendor calls made by rf_blade_open_multi: whether malloc
succeeds, the status of bladerf_open, the per-channel statuses and
out-pointers of the gain configuration calls, and the oracles of the two
sample-rate setters invoked with the default rate. -/
structure OpenHW where
  mallocOk : Bool
  openStatus : Int
  setGainModeStatus : Nat → Int
  getGainRangeRxStatus : Nat → Int
  gainRangeRx : Nat → Option GainRange
  setGainStatus : Nat → Int
  getGainRangeTxStatus : Nat → Int
  gainRangeTx : Nat → Option GainRange
  rxSrate : SrateHW
  txSrate : SrateHW

/-- A vendor-SDK-conformant oracle: bladerf_get_gain_range returns a non-null
range pointer whenever it reports status 0. -/
def OpenHW.Conformant (hw : OpenHW) : Prop :=
  (∀ ch, hw.getGainRangeRxStatus ch = 0 → hw.gainRangeRx ch ≠ none) ∧
  (∀ ch, hw.getGainRangeTxStatus ch = 0 → hw.gainRangeTx ch ≠ none)

/-- srsran_rf_info_t gain bounds, as filled in by rf_blade_open_multi. -/
structure RfInfo where
  min_tx_gain : Int
  max_tx_gain : Int
  min_rx_gain : Int
  max_rx_gain : Int
deriving DecidableEq

/-- How a call to rf_blade_open_multi ends: rejected channel count, failed
malloc, a goto clean_exit with the current status, a dereference of a null
gain-range pointer while filling the info record, or success with the info
record. -/
inductive OpenOutcome where
  | tooManyChannels
  | mallocFail
  | failed (status : Int)
  | nullDeref
  | ok (info : RfInfo)
deriving DecidableEq

/-- The int value rf_blade_open_multi returns for each outcome
(SRSRAN_ERROR for the channel-count guard, -1 for failed malloc, the vendor
status on clean_exit, SRSRAN_SUCCESS on success, and none where the C code
crashes on the null dereference instead of returning). -/
def OpenOutcome.retCode : OpenOutcome → Option Int
  | .tooManyChannels => some SRSRAN_ERROR
  | .mallocFail => some (-1)
  | .failed s => some s
  | .nullDeref => none
  | .ok _ => some SRSRAN_SUCCESS

/-- Result of a call to rf_blade_open_multi: the outcome, the vendor calls
issued, whether bladerf_open succeeded at some point, whether bladerf_close
was ever called on the acquired device, and whether the malloc'd handler was
freed. -/
structure OpenResult where
  outcome : OpenOutcome
  trace : List HWCall
  deviceAcquired : Bool
  deviceClosed : Bool
  handlerFreed : Bool
deriving DecidableEq

/-- Outcome of one of the per-channel gain-configuration loops of
rf_blade_open_multi: either a goto clean_exit with the current status, or
normal completion carrying the final value of the range pointer. -/
inductive GainLoopOut where
  | fail (status : Int) (trace : List HWCall)
  | ok (range : Option GainRange) (trace : List HWCall)

/-- Embedding of the RX gain loop of rf_blade_open_multi: per channel,
bladerf_set_gain_mode (nonzero status exits), bladerf_get_gain_range into
range_rx (nonzero status or null pointer exits with the call's status), and
bladerf_set_gain to range_rx->max (nonzero status exits).  The range
argument threads the current value of the local range_rx pointer. -/
def open_rx_loop (hw : OpenHW) : List Nat → Option GainRange → GainLoopOut
  | [], r => .ok r []
  | ch :: rest, _ =>
    if hw.setGainModeStatus ch ≠ 0 then
      .fail (hw.setGainModeStatus ch) [.setGainMode ch]
    else
      match hw.gainRangeRx ch with
      | none => .fail (hw.getGainRangeRxStatus ch)
          [.setGainMode ch, .getGainRangeRx ch]
      | some rng =>
        if hw.getGainRangeRxStatus ch ≠ 0 then
          .fail (hw.getGainRangeRxStatus ch)
            [.setGainMode ch, .getGainRangeRx ch]
        else if hw.setGainStatus ch ≠ 0 then
          .fail (hw.setGainStatus ch)
            [.setGainMode ch, .getGainRangeRx ch, .setGain ch rng.max]
        else
          match open_rx_loop hw rest (some rng) with
          | .fail s tr => .fail s
              (.setGainMode ch :: .getGainRangeRx ch :: .setGain ch rng.max :: tr)
          | .ok rr tr => .ok rr
              (.setGainMode ch :: .getGainRangeRx ch :: .setGain ch rng.max :: tr)

/-- Embedding of the TX gain-range loop of rf_blade_open_multi: per channel,
bladerf_get_gain_range into range_tx; a nonzero status or a null pointer
exits with the call's status. -/
def open_tx_loop (hw : OpenHW) : List Nat → Option GainRange → GainLoopOut
  | [], r => .ok r []
  | ch :: rest, _ =>
    match hw.gainRangeTx ch with
    | none => .fail (hw.getGainRangeTxStatus ch) [.getGainRangeTx ch]
    | some rng =>
      if hw.getGainRangeTxStatus ch ≠ 0 then
        .fail (hw.getGainRangeTxStatus ch) [.getGainRangeTx ch]
      else
        match open_tx_loop hw rest (some rng) with
        | .fail s tr => .fail s (.getGainRangeTx ch :: tr)
        | .ok rr tr => .ok rr (.getGainRangeTx ch :: tr)

/-- The full vendor-call trace of a successful run of rf_blade_open_multi's
configuration phase: bladerf_open, both gain loops, then the default
sample-rate setters, TX first then RX, at the (uint32) default rate
1.92e6 = 1920000 (their return values are ignored by open). -/
def open_full_trace (hw : OpenHW) (nof_channels : Nat)
    (tr tr2 : List HWCall) : List HWCall :=
  .openDev :: (tr ++ tr2 ++ (rf_blade_set_tx_srate hw.txSrate nof_channels 1920000).trace
    ++ (rf_blade_set_rx_srate hw.rxSrate nof_channels 1920000).trace)

/-- Embedding of rf_blade_open_multi.  A channel count above 2 is rejected
with SRSRAN_ERROR before malloc and before any vendor call; a failed malloc
returns -1; a failed bladerf_open goes to clean_exit.  Otherwise the RX gain
loop and the TX gain-range loop run over all channels (both range pointers
start null), the default sample rates are applied TX first then RX with the
(uint32) default 1.92e6 = 1920000 and their return values ignored, and the
info record is filled from range_tx and range_rx, dereferencing them without
a null check.  The clean_exit path frees the handler and returns the current
status; it never calls bladerf_close. -/
def rf_blade_open_multi (hw : OpenHW) (nof_channels : Nat) : OpenResult :=
  if 2 < nof_channels then
    ⟨.tooManyChannels, [], false, false, false⟩
  else if hw.mallocOk = false then
    ⟨.mallocFail, [], false, false, false⟩
  else if hw.openStatus ≠ 0 then
    ⟨.failed hw.openStatus, [.openDev], false, false, true⟩
  else
    match open_rx_loop hw (List.range nof_channels) none with
    | .fail s tr => ⟨.failed s, .openDev :: tr, true, false, true⟩
    | .ok rangeRx tr =>
      match open_tx_loop hw (List.range nof_channels) none with
      | .fail s tr2 => ⟨.failed s, .openDev :: (tr ++ tr2), true, false, true⟩
      | .ok rangeTx tr2 =>
        match rangeTx, rangeRx with
        | some rt, some rr =>
          ⟨.ok ⟨rt.min, rt.max, rr.min, rr.max⟩, open_full_trace hw nof_channels tr tr2,
            true, false, false⟩
        | _, _ => ⟨.nullDeref, open_full_trace hw nof_channels tr tr2, true, false, false⟩

/-! Theorems. -/

/-- For n in [1, 2^fuel), natLog2Fuel computes the binade exponent: the
unique e with 2^e <= n < 2^(e+1). -/
theorem natLog2Fuel_spec : ∀ (fuel n : Nat), 1 ≤ n → n < 2 ^ fuel →
    2 ^ natLog2Fuel fuel n ≤ n ∧ n < 2 ^ (natLog2Fuel fuel n + 1)
  | 0, n => by
    intro h1 h2
    simp at h2
    omega
  | fuel + 1, n => by
    intro h1 h2
    simp only [natLog2Fuel]
    split
    · rename_i hle
      refine ⟨by simpa using h1, ?_⟩
      have he : n = 1 := le_antisymm hle h1
      simp [he]
    · rename_i hgt
      have hpow : 2 ^ (fuel + 1) = 2 * 2 ^ fuel := by ring
      have hhalf1 : 1 ≤ n / 2 := by omega
      have hhalf2 : n / 2 < 2 ^ fuel := by omega
      obtain ⟨ha, hb⟩ := natLog2Fuel_spec fuel (n / 2) hhalf1 hhalf2
      have hp1 : 2 ^ (natLog2Fuel fuel (n / 2) + 1) =
          2 * 2 ^ natLog2Fuel fuel (n / 2) := by ring
      have hp2 : 2 ^ (natLog2Fuel fuel (n / 2) + 1 + 1) =
          2 * 2 ^ (natLog2Fuel fuel (n / 2) + 1) := by ring
      exact ⟨by omega, by omega⟩

/-- natLog2 computes the binade exponent of every positive value below
2^128, which covers all arguments the timestamp model produces. -/
theorem natLog2_spec (n : Nat) (h1 : 1 ≤ n) (h2 : n < 2 ^ 128) :
    2 ^ natLog2 n ≤ n ∧ n < 2 ^ (natLog2 n + 1) :=
  natLog2Fuel_spec 128 n h1 h2

/-- The integer floor of a quotient of Nat casts is the Nat division. -/
theorem floor_natCast_div (a b : Nat) (hb : 0 < b) :
    ⌊(a : ℚ) / (b : ℚ)⌋ = ((a / b : Nat) : Int) := by
  have hq : (0 : ℚ) < (b : ℚ) := by exact_mod_cast hb
  rw [Int.floor_eq_iff]
  constructor
  · rw [le_div_iff₀ hq]
    exact_mod_cast Nat.div_mul_le_self a b
  · rw [div_lt_iff₀ hq]
    have hn : a < (a / b + 1) * b :=
      (Nat.div_lt_iff_lt_mul hb).1 (Nat.lt_succ_self _)
    exact_mod_cast hn

/-- The (time_t) truncation of a nonnegative double equals the floor of its
exact rational value. -/
theorem truncOfParts_eq_floor (p : Nat × Int) :
    ((truncOfParts p : Nat) : Int) = ⌊qOfParts p⌋ := by
  by_cases hp : 0 ≤ p.2
  · unfold truncOfParts qOfParts
    rw [if_pos hp, if_pos hp, Int.floor_natCast]
  · unfold truncOfParts qOfParts
    rw [if_neg hp, if_neg hp, floor_natCast_div _ _ (pow_pos (by norm_num) _)]

/-- Claim C5 (amended): whenever the double computation of
(double)timestamp / rate is exact — the conversion and division introduce no
rounding, as at every timestamp below 2^53 whose quotient is representable,
and in particular at the spec's instance rate 1000000, timestamp 1500000 —
timestamp_to_secs returns the integer floor of timestamp / rate as whole
seconds and the remainder as a fractional part in [0, 1), the two parts
summing exactly to timestamp / rate.  The timestamp bound 2^63 keeps the
(time_t) cast in range. -/
theorem timestamp_to_secs_floor_remainder (rate ts : Nat) (h : 0 < rate)
    (hts : ts < 2 ^ 63)
    (hexact : qOfParts (totalsecsParts rate ts) = (ts : ℚ) / (rate : ℚ)) :
    (timestamp_to_secs rate ts).1 = (ts / rate : Nat) ∧
    0 ≤ (timestamp_to_secs rate ts).2 ∧
    (timestamp_to_secs rate ts).2 < 1 ∧
    ((timestamp_to_secs rate ts).1 : ℚ) + (timestamp_to_secs rate ts).2 =
      (ts : ℚ) / (rate : ℚ) := by
  rcases Nat.eq_zero_or_pos ts with rfl | hts0
  · rw [timestamp_to_secs.eq_def, if_neg h.ne', if_pos rfl]
    norm_num [Nat.zero_div]
  · have hfl : ⌊(ts : ℚ) / (rate : ℚ)⌋ = ((ts / rate : Nat) : Int) :=
      floor_natCast_div ts rate h
    have htr0 : ((truncOfParts (totalsecsParts rate ts) : Nat) : Int) =
        ⌊qOfParts (totalsecsParts rate ts)⌋ := truncOfParts_eq_floor _
    have htr1 : ((truncOfParts (totalsecsParts rate ts) : Nat) : Int) =
        ((ts / rate : Nat) : Int) := htr0.trans (by rw [hexact, hfl])
    have hc : ((truncOfParts (totalsecsParts rate ts) : Nat) : ℚ) =
        ((⌊qOfParts (totalsecsParts rate ts)⌋ : Int) : ℚ) := by
      exact_mod_cast htr0
    rw [timestamp_to_secs.eq_def, if_neg h.ne', if_neg hts0.ne']
    refine ⟨htr1, ?_, ?_, ?_⟩
    · show (0 : ℚ) ≤ qOfParts (totalsecsParts rate ts) -
        ((truncOfParts (totalsecsParts rate ts) : Nat) : ℚ)
      rw [hc]
      exact sub_nonneg.2 (Int.floor_le _)
    · show qOfParts (totalsecsParts rate ts) -
        ((truncOfParts (totalsecsParts rate ts) : Nat) : ℚ) < 1
      rw [hc]
      have := Int.lt_floor_add_one (qOfParts (totalsecsParts rate ts))
      linarith
    · show (((truncOfParts (totalsecsParts rate ts) : Nat) : Int) : ℚ) +
        (qOfParts (totalsecsParts rate ts) -
          ((truncOfParts (totalsecsParts rate ts) : Nat) : ℚ)) =
        (ts : ℚ) / (rate : ℚ)
      rw [← hexact]
      push_cast
      ring

/-- Witness for timestamp_to_secs_floor_remainder at the spec's concrete
instance: rate 1000000 and timestamp 1500000 are exact in double — the
quotient is the representable 3/2 — and give whole seconds 1 and fractional
part 1/2 in [0, 1). -/
theorem timestamp_to_secs_floor_remainder_witness :
    (timestamp_to_secs 1000000 1500000).1 = 1 ∧
    (timestamp_to_secs 1000000 1500000).2 = 1 / 2 ∧
    0 ≤ (timestamp_to_secs 1000000 1500000).2 ∧
    (timestamp_to_secs 1000000 1500000).2 < 1 := by
  have hparts : totalsecsParts 1000000 1500000 = (6755399441055744, -52) := by
    decide
  have hexact : qOfParts (totalsecsParts 1000000 1500000) =
      (1500000 : ℚ) / (1000000 : ℚ) := by
    rw [hparts]
    unfold qOfParts
    norm_num
    rw [show Int.toNat 52 = 52 from rfl]
    norm_num
  have h := timestamp_to_secs_floor_remainder 1000000 1500000 (by norm_num)
    (by norm_num) hexact
  have h1 : (timestamp_to_secs 1000000 1500000).1 = 1 := by
    rw [h.1]; norm_num
  refine ⟨h1, ?_, h.2.1, h.2.2.1⟩
  have h4 := h.2.2.2
  rw [h1] at h4
  push_cast at h4
  norm_num at h4
  linarith

/-- Counterexample to claim C5 as stated: at rate 2000000 and timestamp
2^49 * 15625 - 1 = 8796093022207999999 (below 2^63, so all casts are in
range), the uint64-to-double conversion rounds the timestamp up to
2^49 * 15625 — the unit in the last place in that binade is 1024 and the
value sits 1 below a representable point — the division is then exact, and
the code returns whole seconds 2^42 = 4398046511104 with fractional part 0,
while the floor of timestamp / rate is 4398046511103: the universal floor
statement fails on the program's double arithmetic. -/
theorem timestamp_to_secs_floor_fails_at_large_timestamp :
    (timestamp_to_secs 2000000 8796093022207999999).1 = 4398046511104 ∧
    (8796093022207999999 : Nat) / 2000000 = 4398046511103 ∧
    (timestamp_to_secs 2000000 8796093022207999999).2 = 0 ∧
    (4398046511104 : Int) ≠ 4398046511103 := by
  have hparts : totalsecsParts 2000000 8796093022207999999 =
      (4503599627370496, -10) := by decide
  have h1 : timestamp_to_secs 2000000 8796093022207999999 =
      (((truncOfParts (4503599627370496, -10) : Nat) : Int),
       qOfParts (4503599627370496, -10) -
         ((truncOfParts (4503599627370496, -10) : Nat) : ℚ)) := by
    rw [timestamp_to_secs.eq_def, if_neg (by norm_num), if_neg (by norm_num),
      hparts]
  rw [h1]
  refine ⟨by decide, by norm_num, ?_, by norm_num⟩
  show qOfParts (4503599627370496, -10) -
    ((truncOfParts (4503599627370496, -10) : Nat) : ℚ) = 0
  unfold qOfParts truncOfParts
  norm_num
  rw [show Int.toNat 10 = 10 from rfl]
  norm_num

/-- Claim C9 (amended): in the channel-split loop of
rf_blade_recv_with_time_multi, every index i with nsamples / 2 ≤ i
(of which there is at least one for every nsamples ≥ 1) writes through
data[1] — the pointer the single-channel wrapper rf_blade_recv_with_time
sets to NULL — and the largest index written through data[1] is
2 * nsamples - 1 - nsamples / 2, which is at least nsamples (out of bounds
for an nsamples-element per-channel buffer) and equals 3 * nsamples / 2 - 1
when nsamples is even. -/
theorem recv_split_null_write_and_overflow (n : Nat) (h : 1 ≤ n) :
    (∀ i, i < 2 * n → n / 2 ≤ i →
      (⟨1, i - n / 2⟩ : SplitWrite) ∈ recvSplitWrites n) ∧
    (⟨1, 2 * n - 1 - n / 2⟩ : SplitWrite) ∈ recvSplitWrites n ∧
    (∀ w ∈ recvSplitWrites n, w.channel = 1 → w.index ≤ 2 * n - 1 - n / 2) ∧
    n ≤ 2 * n - 1 - n / 2 ∧
    (n % 2 = 0 → 2 * n - 1 - n / 2 = 3 * n / 2 - 1) := by
  have hmem : ∀ i, i < 2 * n → n / 2 ≤ i →
      (⟨1, i - n / 2⟩ : SplitWrite) ∈ recvSplitWrites n := by
    intro i h1 h2
    refine List.mem_map.2 ⟨i, List.mem_range.2 h1, ?_⟩
    rw [if_pos h2, if_neg (Nat.not_lt.2 h2)]
  refine ⟨hmem, hmem (2 * n - 1) (by omega) (by omega), ?_, by omega,
    fun he => by omega⟩
  intro w hw hch
  obtain ⟨i, hi, rfl⟩ := List.mem_map.1 hw
  have hi' := List.mem_range.1 hi
  by_cases hc : n / 2 ≤ i
  · simp only [if_pos hc, if_neg (Nat.not_lt.2 hc)]
    omega
  · simp only [if_neg hc] at hch
    exact absurd hch (by norm_num)

/-- Witness for recv_split_null_write_and_overflow at nsamples = 4: the
split loop writes channel 1 at index 5, past a 4-element buffer. -/
theorem recv_split_null_write_and_overflow_witness :
    (⟨1, 5⟩ : SplitWrite) ∈ recvSplitWrites 4 ∧ 4 ≤ 2 * 4 - 1 - 4 / 2 :=
  ⟨(recv_split_null_write_and_overflow 4 (by norm_num)).2.1,
   (recv_split_null_write_and_overflow 4 (by norm_num)).2.2.2.1⟩

/-- Counterexample to claim C9 as stated: at nsamples = 3 the channel-split
loop writes channel 1 at index 4, but (3 * nsamples / 2) - 1 evaluates to 3
at nsamples = 3, so the claimed maximum written index is exceeded. -/
theorem recv_split_claimed_max_index_fails :
    (⟨1, 4⟩ : SplitWrite) ∈ recvSplitWrites 3 ∧ 3 * 3 / 2 - 1 < 4 := by
  decide

/-- Concrete channel-0 buffer for the round-trip counterexample: samples
(0, 1/2), both exactly representable at scale 2048. -/
def rtD0 : Nat → ℚ := fun j => if j = 1 then 1 / 2 else 0

/-- Concrete channel-1 buffer for the round-trip counterexample: all
zeros. -/
def rtD1 : Nat → ℚ := fun _ => 0

/-- Claim C3 fails on the code: with nsamples = 2, channel-0 buffer
(0, 1/2) and channel-1 buffer (0, 0) — values on the fixed-point grid, so
quantization is exact — the send-then-receive composition stores
channel 0's second sample into channel 1's first slot and never writes
channel 0's second slot, so both output buffers differ from the originals
by 1/2, far beyond the 1/2048 quantization tolerance. -/
theorem roundtrip_not_within_tolerance :
    (roundTrip 2 rtD0 rtD1).2 0 = 1 / 2 ∧ rtD1 0 = 0 ∧
    (roundTrip 2 rtD0 rtD1).1 1 = 0 ∧ rtD0 1 = 1 / 2 ∧
    ¬ ((1 : ℚ) / 2 - 0 ≤ 1 / 2048) := by
  have h1 : sendInterleave 2 rtD0 rtD1 1 = 1 / 2 := rfl
  have hq : fixed_to_float (float_to_fixed (sendInterleave 2 rtD0 rtD1 1)) = 1 / 2 := by
    rw [h1]
    norm_num [float_to_fixed, fixed_to_float, ratTrunc]
  refine ⟨?_, rfl, rfl, rfl, by norm_num⟩
  show fixed_to_float (float_to_fixed (sendInterleave 2 rtD0 rtD1 1)) = 1 / 2
  exact hq

/-- Concrete channel-0 buffer for the inverse counterexample. -/
def invD0 : Nat → ℚ := fun j => if j = 0 then 10 else if j = 1 then 20 else 0

/-- Concrete channel-1 buffer for the inverse counterexample. -/
def invD1 : Nat → ℚ := fun j => if j = 0 then 30 else if j = 1 then 40 else 0

/-- Claim C4 fails on the code: with nsamples = 2 (even buffer length) and
per-channel buffers (10, 20) and (30, 40), composing the send path's
channel-combination loop with the receive path's channel-split loop yields
channel 1 starting with 20 (channel 0's second sample) instead of 30 and
leaves channel 0's second slot unwritten, so the two loops are not mutual
inverses. -/
theorem interleave_split_not_inverses :
    (recvSplit 2 (sendInterleave 2 invD0 invD1) (fun _ => 0) (fun _ => 0)).2 0 = 20 ∧
    invD1 0 = 30 ∧
    (recvSplit 2 (sendInterleave 2 invD0 invD1) (fun _ => 0) (fun _ => 0)).1 1 = 0 ∧
    invD0 1 = 20 := by
  decide

/-- Claim C2 (amended): the receive guard compares
BLADERF_MAX_PORTS * nsamples computed in 32-bit unsigned arithmetic against
CONVERT_BUFFER_SIZE; whenever that wrapped product exceeds the bound the
call returns -1 without issuing any vendor call, and for every nsamples at
or below CONVERT_BUFFER_SIZE / BLADERF_MAX_PORTS the int16 slots the
hardware receive fills in the scratch rx_buffer stay within its declared
capacity. -/
theorem recv_guard_and_capacity (hw : RecvHW) (reg : Bool) (rate n : Nat) :
    (CONVERT_BUFFER_SIZE < (BLADERF_MAX_PORTS * n) % UINT32_MOD →
      (rf_blade_recv_with_time_multi hw reg rate n).ret = -1 ∧
      (rf_blade_recv_with_time_multi hw reg rate n).trace = []) ∧
    (n ≤ CONVERT_BUFFER_SIZE / BLADERF_MAX_PORTS →
      (rf_blade_recv_with_time_multi hw reg rate n).rxWriteExtent ≤
        CONVERT_BUFFER_SIZE * SRSRAN_MAX_PORTS) := by
  constructor
  · intro hg
    unfold rf_blade_recv_with_time_multi
    rw [if_pos hg]
    exact ⟨rfl, rfl⟩
  · intro hb
    have hcap : 2 * n ≤ CONVERT_BUFFER_SIZE * SRSRAN_MAX_PORTS := by
      simp only [CONVERT_BUFFER_SIZE, BLADERF_MAX_PORTS, SRSRAN_MAX_PORTS] at hb ⊢
      omega
    unfold rf_blade_recv_with_time_multi
    split
    · exact Nat.zero_le _
    · split
      · exact hcap
      · exact hcap

/-- Oracle for a receive in which the vendor call succeeds with no
overrun. -/
def recvHwOk : RecvHW := ⟨0, false, 0, 0⟩

/-- Witness for recv_guard_and_capacity: at nsamples = 122881 the guard
product 245762 exceeds CONVERT_BUFFER_SIZE and the call returns -1 with no
vendor call issued; at nsamples = 1024 the receive fills 2048 int16 slots,
within the scratch capacity. -/
theorem recv_guard_and_capacity_witness :
    ((rf_blade_recv_with_time_multi recvHwOk true 1920000 122881).ret = -1 ∧
      (rf_blade_recv_with_time_multi recvHwOk true 1920000 122881).trace = []) ∧
    (rf_blade_recv_with_time_multi recvHwOk true 1920000 1024).rxWriteExtent ≤
      CONVERT_BUFFER_SIZE * SRSRAN_MAX_PORTS :=
  ⟨(recv_guard_and_capacity recvHwOk true 1920000 122881).1 (by decide),
   (recv_guard_and_capacity recvHwOk true 1920000 1024).2 (by decide)⟩

/-- Counterexample to claim C2 as stated: at nsamples = 2^31 = 2147483648
the guard product wraps to 0 in 32-bit arithmetic, so although
2 * nsamples mathematically exceeds CONVERT_BUFFER_SIZE the call does issue
the hardware receive (and does not return -1), which then fills 2^33 int16
slots — past the scratch capacity. -/
theorem recv_guard_wraparound_bypass :
    CONVERT_BUFFER_SIZE < 2 * 2147483648 ∧
    (rf_blade_recv_with_time_multi recvHwOk true 1920000 2147483648).trace =
      [HWCall.syncRx 2147483648] ∧
    (rf_blade_recv_with_time_multi recvHwOk true 1920000 2147483648).ret ≠ -1 ∧
    CONVERT_BUFFER_SIZE * SRSRAN_MAX_PORTS <
      (rf_blade_recv_with_time_multi recvHwOk true 1920000 2147483648).rxWriteExtent := by
  refine ⟨by norm_num [CONVERT_BUFFER_SIZE], ?_, ?_, ?_⟩
  · rfl
  · decide
  · decide

/-- Claim C7: when the guard passes, the vendor receive succeeds, and the
overrun metadata flag is set, a registered error handler is invoked exactly
once, with kind overflow and the reported actual count; when no handler is
registered nothing is invoked and the overrun is logged instead. -/
theorem recv_overrun_invokes_handler_once (hw : RecvHW) (reg : Bool)
    (rate n : Nat)
    (hg : (BLADERF_MAX_PORTS * n) % UINT32_MOD ≤ CONVERT_BUFFER_SIZE)
    (hs : hw.syncRxStatus = 0) (ho : hw.overrun = true) :
    (reg = true →
      (rf_blade_recv_with_time_multi hw reg rate n).handlerCalls =
        [(RfErrorType.overflow, hw.actualCount)]) ∧
    (reg = false →
      (rf_blade_recv_with_time_multi hw reg rate n).handlerCalls = [] ∧
      (rf_blade_recv_with_time_multi hw reg rate n).loggedOverrun = true) := by
  unfold rf_blade_recv_with_time_multi
  rw [if_neg (Nat.not_lt.2 hg), if_neg (by simp [hs])]
  cases reg <;> simp [ho]

/-- Oracle for a receive in which the vendor call succeeds with the overrun
flag set and 37 valid samples reported. -/
def recvHwOverrun : RecvHW := ⟨0, true, 37, 2500000⟩

/-- Witness for recv_overrun_invokes_handler_once with a registered handler
at nsamples = 1024: exactly one invocation with kind overflow and count
37. -/
theorem recv_overrun_invokes_handler_once_witness :
    (true = true →
      (rf_blade_recv_with_time_multi recvHwOverrun true 1920000 1024).handlerCalls =
        [(RfErrorType.overflow, recvHwOverrun.actualCount)]) ∧
    ((true : Bool) = false →
      (rf_blade_recv_with_time_multi recvHwOverrun true 1920000 1024).handlerCalls = [] ∧
      (rf_blade_recv_with_time_multi recvHwOverrun true 1920000 1024).loggedOverrun = true) :=
  recv_overrun_invokes_handler_once recvHwOverrun true 1920000 1024 (by decide) rfl rfl

/-- Every bandwidth event of the RX sample-rate loop carries a bandwidth
derived from the achieved rate at that event: the full rate below 2 MHz
and 4/5 of it (the truncated 0.8 product) at or above. -/
theorem set_rx_srate_loop_bw (hw : SrateHW) (freq : Nat) :
    ∀ (l : List Nat) (r : Nat), ∀ ev ∈ (set_rx_srate_loop hw freq l r).bwEvents,
      ev.bw = if ev.rate < 2000000 then ev.rate else 4 * ev.rate / 5
  | [], r => by simp [set_rx_srate_loop]
  | ch :: rest, r => by
    intro ev hev
    simp only [set_rx_srate_loop] at hev
    split at hev
    · simp at hev
    · split at hev
      · simp at hev
        rw [hev]
      · rcases List.mem_cons.1 hev with h | h
        · rw [h]
        · exact set_rx_srate_loop_bw hw freq rest (hw.achievedRate ch) ev h

/-- Every bandwidth event of the TX sample-rate loop carries the full
achieved rate as its bandwidth. -/
theorem set_tx_srate_loop_bw (hw : SrateHW) (freq : Nat) :
    ∀ (l : List Nat) (r : Nat), ∀ ev ∈ (set_tx_srate_loop hw freq l r).bwEvents,
      ev.bw = ev.rate
  | [], r => by simp [set_tx_srate_loop]
  | ch :: rest, r => by
    intro ev hev
    simp only [set_tx_srate_loop] at hev
    split at hev
    · simp at hev
    · split at hev
      · simp at hev
        rw [hev]
      · rcases List.mem_cons.1 hev with h | h
        · rw [h]
        · exact set_tx_srate_loop_bw hw freq rest (hw.achievedRate ch) ev h

/-- Claim C6 (amended): every bandwidth the RX sample-rate setter applies is
derived from the achieved rate — the full rate below 2 MHz and 80%
(truncated) at or above — while the TX sample-rate setter always applies
the full achieved rate as the bandwidth. -/
theorem bandwidth_from_achieved_rate (rxHw txHw : SrateHW)
    (nrx ntx freq : Nat) :
    (∀ ev ∈ (rf_blade_set_rx_srate rxHw nrx freq).bwEvents,
      ev.bw = if ev.rate < 2000000 then ev.rate else 4 * ev.rate / 5) ∧
    (∀ ev ∈ (rf_blade_set_tx_srate txHw ntx freq).bwEvents,
      ev.bw = ev.rate) := by
  constructor
  · intro ev hev
    exact set_rx_srate_loop_bw rxHw freq (List.range nrx) 0 ev hev
  · intro ev hev
    exact set_tx_srate_loop_bw txHw freq (List.range ntx) 0 ev hev

/-- Oracle for a sample-rate setter achieving 23.04 MHz on every channel
with all vendor calls succeeding. -/
def srateHwHigh : SrateHW := ⟨fun _ => 0, fun _ => 23040000, fun _ => 0⟩

/-- Witness for bandwidth_from_achieved_rate at one channel and achieved
rate 23.04 MHz: the RX bandwidth event applies 18432000 (80% of the rate),
the TX bandwidth event applies the full rate. -/
theorem bandwidth_from_achieved_rate_witness :
    ((⟨0, 23040000, 18432000⟩ : BwEvent).bw =
      if (⟨0, 23040000, 18432000⟩ : BwEvent).rate < 2000000 then
        (⟨0, 23040000, 18432000⟩ : BwEvent).rate
      else 4 * (⟨0, 23040000, 18432000⟩ : BwEvent).rate / 5) ∧
    (⟨0, 23040000, 23040000⟩ : BwEvent).bw =
      (⟨0, 23040000, 23040000⟩ : BwEvent).rate :=
  ⟨(bandwidth_from_achieved_rate srateHwHigh srateHwHigh 1 1 23040000).1
      ⟨0, 23040000, 18432000⟩ (by decide),
   (bandwidth_from_achieved_rate srateHwHigh srateHwHigh 1 1 23040000).2
      ⟨0, 23040000, 23040000⟩ (by decide)⟩

/-- Oracle for a sample-rate setter achieving exactly 2 MHz on every channel
with all vendor calls succeeding. -/
def srateHw2M : SrateHW := ⟨fun _ => 0, fun _ => 2000000, fun _ => 0⟩

/-- Counterexample to claim C6 as stated: with an achieved TX rate of
exactly 2 MHz the TX setter applies bandwidth 2000000 — the full rate —
although the claim requires 80% of the rate (1600000) at 2 MHz or above. -/
theorem tx_bandwidth_not_derived_from_rate :
    (rf_blade_set_tx_srate srateHw2M 1 2000000).bwEvents =
      [⟨0, 2000000, 2000000⟩] ∧
    ¬ ((2000000 : Nat) < 2000000) ∧
    (2000000 : Nat) ≠ 4 * 2000000 / 5 := by
  refine ⟨rfl, by norm_num, by norm_num⟩

/-- Claim C1: opening with more than 2 channels returns SRSRAN_ERROR before
any vendor SDK call is made, leaving no device acquired. -/
theorem open_multi_rejects_too_many_channels (hw : OpenHW) (n : Nat)
    (h : 2 < n) :
    (rf_blade_open_multi hw n).outcome.retCode = some SRSRAN_ERROR ∧
    (rf_blade_open_multi hw n).trace = [] ∧
    (rf_blade_open_multi hw n).deviceAcquired = false := by
  unfold rf_blade_open_multi
  rw [if_pos h]
  exact ⟨rfl, rfl, rfl⟩

/-- Sample-rate oracle achieving the default rate with all calls
succeeding. -/
def srateHwDefault : SrateHW := ⟨fun _ => 0, fun _ => 1920000, fun _ => 0⟩

/-- Open oracle in which malloc and every vendor call succeed, with
non-null gain ranges. -/
def openHwOk : OpenHW :=
  ⟨true, 0, fun _ => 0, fun _ => 0, fun _ => some ⟨0, 60⟩, fun _ => 0,
   fun _ => 0, fun _ => some ⟨17, 66⟩, srateHwDefault, srateHwDefault⟩

/-- Witness for open_multi_rejects_too_many_channels at 3 channels. -/
theorem open_multi_rejects_too_many_channels_witness :
    (rf_blade_open_multi openHwOk 3).outcome.retCode = some SRSRAN_ERROR ∧
    (rf_blade_open_multi openHwOk 3).trace = [] ∧
    (rf_blade_open_multi openHwOk 3).deviceAcquired = false :=
  open_multi_rejects_too_many_channels openHwOk 3 (by norm_num)

/-- Claim C10: opening with zero channels skips both gain-configuration
loops, so both range pointers stay null and filling the info record
dereferences a null pointer instead of failing with an error. -/
theorem open_multi_zero_channels_null_deref (hw : OpenHW)
    (hm : hw.mallocOk = true) (ho : hw.openStatus = 0) :
    (rf_blade_open_multi hw 0).outcome = OpenOutcome.nullDeref := by
  unfold rf_blade_open_multi
  rw [if_neg (by omega), if_neg (by simp [hm]), if_neg (by simp [ho])]
  simp [open_rx_loop, open_tx_loop]

/-- Witness for open_multi_zero_channels_null_deref on the all-success
oracle. -/
theorem open_multi_zero_channels_null_deref_witness :
    (rf_blade_open_multi openHwOk 0).outcome = OpenOutcome.nullDeref :=
  open_multi_zero_channels_null_deref openHwOk rfl rfl

/-- A clean_exit of the RX gain loop always carries a nonzero status when
the oracle is vendor-conformant (a gain-range query reporting status 0
yields a non-null pointer). -/
theorem open_rx_loop_fail_status (hw : OpenHW)
    (hc : ∀ ch, hw.getGainRangeRxStatus ch = 0 → hw.gainRangeRx ch ≠ none) :
    ∀ (l : List Nat) (r : Option GainRange) (s : Int) (tr : List HWCall),
      open_rx_loop hw l r = .fail s tr → s ≠ 0
  | [], r, s, tr => by simp [open_rx_loop]
  | ch :: rest, r, s, tr => by
    intro h
    simp only [open_rx_loop] at h
    split at h
    · rename_i h1
      cases h
      exact h1
    · split at h
      · rename_i hnone
        cases h
        intro h0
        exact hc ch h0 hnone
      · split at h
        · rename_i h2
          cases h
          exact h2
        · split at h
          · rename_i h3
            cases h
            exact h3
          · split at h
            · rename_i heq
              cases h
              exact open_rx_loop_fail_status hw hc rest _ _ _ heq
            · cases h

/-- A clean_exit of the TX gain-range loop always carries a nonzero status
when the oracle is vendor-conformant. -/
theorem open_tx_loop_fail_status (hw : OpenHW)
    (hc : ∀ ch, hw.getGainRangeTxStatus ch = 0 → hw.gainRangeTx ch ≠ none) :
    ∀ (l : List Nat) (r : Option GainRange) (s : Int) (tr : List HWCall),
      open_tx_loop hw l r = .fail s tr → s ≠ 0
  | [], r, s, tr => by simp [open_tx_loop]
  | ch :: rest, r, s, tr => by
    intro h
    simp only [open_tx_loop] at h
    split at h
    · rename_i hnone
      cases h
      intro h0
      exact hc ch h0 hnone
    · split at h
      · rename_i h2
        cases h
        exact h2
      · split at h
        · rename_i heq
          cases h
          exact open_tx_loop_fail_status hw hc rest _ _ _ heq
        · cases h

/-- Claim C8 (amended): whenever rf_blade_open_multi takes the clean_exit
path — device open, gain-mode set, gain-range query, or gain set failing
after the handle allocation — it frees the handler allocation and returns a
nonzero status, but it never calls bladerf_close, so an already-acquired
vendor device is not released. -/
theorem open_multi_failure_frees_handler_never_closes (hw : OpenHW)
    (n : Nat) (s : Int) (hc : hw.Conformant) :
    (rf_blade_open_multi hw n).outcome = .failed s →
      s ≠ 0 ∧ (rf_blade_open_multi hw n).handlerFreed = true ∧
      (rf_blade_open_multi hw n).deviceClosed = false := by
  unfold rf_blade_open_multi
  split
  · intro h
    simp at h
  split
  · intro h
    simp at h
  split
  · rename_i h3
    intro h
    simp only [OpenOutcome.failed.injEq] at h
    exact ⟨h ▸ h3, rfl, rfl⟩
  split
  · rename_i s' tr' heq
    intro h
    simp only [OpenOutcome.failed.injEq] at h
    exact ⟨h ▸ open_rx_loop_fail_status hw hc.1 _ _ _ _ heq, rfl, rfl⟩
  split
  · rename_i s' tr' heq
    intro h
    simp only [OpenOutcome.failed.injEq] at h
    exact ⟨h ▸ open_tx_loop_fail_status hw hc.2 _ _ _ _ heq, rfl, rfl⟩
  split
  all_goals intro h
  all_goals simp at h

/-- Open oracle in which bladerf_open succeeds and the first
bladerf_set_gain_mode call fails with status 5. -/
def openHwGainModeFail : OpenHW :=
  ⟨true, 0, fun _ => 5, fun _ => 0, fun _ => some ⟨0, 60⟩, fun _ => 0,
   fun _ => 0, fun _ => some ⟨17, 66⟩, srateHwDefault, srateHwDefault⟩

/-- Counterexample to claim C8 as stated: when bladerf_open succeeds and
bladerf_set_gain_mode on channel 0 then fails with status 5, open returns
the error after freeing the handler, yet the acquired vendor device is
never closed — it leaks. -/
theorem open_multi_failure_leaks_device :
    (rf_blade_open_multi openHwGainModeFail 1).outcome = .failed 5 ∧
    (rf_blade_open_multi openHwGainModeFail 1).deviceAcquired = true ∧
    (rf_blade_open_multi openHwGainModeFail 1).deviceClosed = false ∧
    (rf_blade_open_multi openHwGainModeFail 1).trace =
      [HWCall.openDev, HWCall.setGainMode 0] := by
  refine ⟨?_, rfl, rfl, ?_⟩ <;> decide

/-- Witness for open_multi_failure_frees_handler_never_closes on the
gain-mode-failure oracle at one channel. -/
theorem open_multi_failure_cleanup_witness :
    (5 : Int) ≠ 0 ∧
    (rf_blade_open_multi openHwGainModeFail 1).handlerFreed = true ∧
    (rf_blade_open_multi openHwGainModeFail 1).deviceClosed = false :=
  open_multi_failure_frees_handler_never_closes openHwGainModeFail 1 5
    ⟨fun ch h => by simp [openHwGainModeFail], fun ch h => by simp [openHwGainModeFail]⟩
    (by decide)

end RfBlade
